import Mathlib

/-!
Verification of the `process_card_data` normalization pipeline from
`sage_clean.py` (Sage export data cleaner).

A cell of the raw table is either a null (pandas `NaN`, modelled `none`) or a
textual value `some s` (the stringified content of the cell).  A raw table is
a list of rows; the pipeline turns it into a `DF` (ordered column names plus
rows) or fails when no header row is found.

Each definition below is a direct translation of the corresponding numbered
step of `process_card_data`:

  1. top trim                          -> `List.drop`
  2. header scan (first 10 rows)       -> `splitHeader`
  3. header installation               -> `installHeader`
  4. column-name cleaning              -> `cleanName`
  5. blank-column naming               -> `renameBlanks`
  6. duplicate-column removal          -> `dedupe`
  7. `Record#` removal                 -> `filterCols`
  8. identifier-column selection       -> `chooseIdCol`, `step8`
  9. digit extraction + forward fill   -> `extractDigits`, `ffillAux`, `step9`
 10. projection on the five columns    -> `step10`
 11. empty-row filter (`dropna`)       -> `step11`
 12. bottom trim                       -> `step12`

`pandas` conventions that matter and are modelled faithfully:
  * `astype(str)` renders `NaN` as the string `"nan"` (`cellStr`);
  * `dropna(subset=cols, how="all")` keeps a row iff some cell of `cols`
    is non-null; with an empty `cols` every row is dropped (the kept-row
    mask `notna(empty).any(axis=1)` is all-`False`);
  * `df.drop(columns=[c])` removes every column labelled `c`;
  * assigning `df["Card No."] = vals` overwrites an existing column of
    that name in place, otherwise appends the column on the right.
-/

namespace Sage

abbrev Cell := Option String

abbrev Row := List Cell

/-- `astype(str)` on a cell: pandas renders a null as the string `"nan"`. -/
def cellStr : Cell → String
  | none => "nan"
  | some s => s

/-- Python `str.strip`: remove leading and trailing whitespace. -/
def stripStr (s : String) : String :=
  String.mk (((s.data.dropWhile Char.isWhitespace).reverse.dropWhile Char.isWhitespace).reverse)

/-- Step 4: a null header cell becomes `""`, any other cell its stripped string form. -/
def cleanName : Cell → String
  | none => ""
  | some s => stripStr s

/-- `pat.isPrefixOf l || ...`: does `pat` occur as a contiguous block of `l`?
(Python's `pat in s`.) -/
def hasSubstr (pat : List Char) : List Char → Bool
  | [] => pat.isEmpty
  | c :: tl => pat.isPrefixOf (c :: tl) || hasSubstr pat tl

/-- Step 2 per-row test: `any("Verified" in cell for cell in row.astype(str))`. -/
def rowHasVerified (r : Row) : Bool :=
  r.any (fun c => hasSubstr "Verified".data (cellStr c).data)

/-- Step 2/3: scan at most `fuel` rows (the code uses `range(min(10, len(df)))`);
the first row containing `"Verified"` becomes the header, the rows strictly
after it the data rows. -/
def splitHeader : Nat → List Row → Option (Row × List Row)
  | _, [] => none
  | 0, _ => none
  | Nat.succ fuel, r :: tl =>
    if rowHasVerified r then some (r, tl) else splitHeader fuel tl

/-- Step 5: each `""` column name becomes `CardHolderNameK`, `K` counting only
the blank columns encountered so far (1-based). -/
def renameBlanks : List String → Nat → List String
  | [], _ => []
  | n :: tl, k =>
    if n = "" then ("CardHolderName" ++ toString (k + 1)) :: renameBlanks tl (k + 1)
    else n :: renameBlanks tl k

/-- A dataframe: ordered column names and rows of cells. -/
structure DF where
  names : List String
  rows : List Row
deriving DecidableEq, Repr

/-- Keep, in order, the columns at positions `idxs`. -/
def selectIdxs (df : DF) (idxs : List Nat) : DF :=
  { names := idxs.map (fun i => df.names.getD i ""),
    rows := df.rows.map (fun r => idxs.map (fun i => r.getD i none)) }

/-- Positions surviving `~df.columns.duplicated()`: a column is kept iff its
name did not already occur to its left. -/
def dedupKeepIdxs (names : List String) : List Nat :=
  (List.range names.length).filter (fun i => decide (names.getD i "" ∉ names.take i))

/-- Step 6: drop duplicate columns, keeping the leftmost of each name. -/
def dedupe (df : DF) : DF :=
  selectIdxs df (dedupKeepIdxs df.names)

/-- Positions of the columns whose name satisfies `p`. -/
def filterColIdxs (p : String → Bool) (names : List String) : List Nat :=
  (List.range names.length).filter (fun i => p (names.getD i ""))

/-- Drop every column whose name fails `p` (`df.drop(columns=...)`). -/
def filterCols (p : String → Bool) (df : DF) : DF :=
  selectIdxs df (filterColIdxs p df.names)

/-- Index of the leftmost column named `nm` (`names.length` when absent). -/
def firstIdx (nm : String) : List String → Nat
  | [] => 0
  | x :: tl => if x = nm then 0 else firstIdx nm tl + 1

/-- `df[nm]`: the cells of the leftmost column named `nm`, top to bottom. -/
def colCells (df : DF) (nm : String) : List Cell :=
  df.rows.map (fun r => r.getD (firstIdx nm df.names) none)

/-- `pre.data.isPrefixOf s.data`: Python `s.startswith(pre)`. -/
def strStarts (pre s : String) : Bool :=
  pre.data.isPrefixOf s.data

/-- Step 8 per-column test: `df[c].dropna().astype(str).head(20)` contains a
value matching `\d+` (i.e. containing a digit character). -/
def hasDigitSample (df : DF) (c : String) : Bool :=
  (((colCells df c).filterMap id).take 20).any (fun s => s.data.any Char.isDigit)

/-- Step 8 selection: the first `CardHolderName*` column (in column order)
whose sample contains a digit. -/
def chooseIdCol (df : DF) : Option String :=
  (df.names.filter (fun n => strStarts "CardHolderName" n)).find? (fun c => hasDigitSample df c)

/-- `df.rename(columns={chosen: "CardHolderName"})`. -/
def renameTo (df : DF) (chosen : String) : DF :=
  { names := df.names.map (fun n => if n = chosen then "CardHolderName" else n),
    rows := df.rows }

/-- Step 8: when a column is chosen, rename it to `CardHolderName` and drop
every other `CardHolderName*` column (dropping by label, as pandas does). -/
def step8 (df : DF) : DF :=
  match chooseIdCol df with
  | none => df
  | some chosen =>
    let cardCols := df.names.filter (fun n => strStarts "CardHolderName" n)
    let dropSet := cardCols.filter (fun c => decide (c ≠ chosen))
    filterCols (fun n => decide (n ∉ dropSet)) (renameTo df chosen)

/-- First contiguous digit run of a character list (regex `(\d+)` first match). -/
def firstDigitRun : List Char → Option String
  | [] => none
  | c :: tl =>
    if c.isDigit then some (String.mk (c :: tl.takeWhile Char.isDigit))
    else firstDigitRun tl

/-- `str.extract(r"(\d+)")` on one value. -/
def extractDigits (s : String) : Option String :=
  firstDigitRun s.data

/-- `ffill`: a missing value inherits the nearest preceding non-missing one. -/
def ffillAux (last : Option String) : List Cell → List Cell
  | [] => []
  | none :: tl => last :: ffillAux last tl
  | some v :: tl => some v :: ffillAux (some v) tl

/-- Step 9 column pass: `astype(str).str.extract(r"(\d+)").ffill()`. -/
def idPass (cells : List Cell) : List Cell :=
  ffillAux none (cells.map (fun c => extractDigits (cellStr c)))

/-- `df[nm] = vals`: overwrite the column named `nm` in place when it exists,
otherwise append it on the right. -/
def setCol (df : DF) (nm : String) (vals : List Cell) : DF :=
  if nm ∈ df.names then
    { names := df.names,
      rows := List.zipWith (fun r v => r.set (firstIdx nm df.names) v) df.rows vals }
  else
    { names := df.names ++ [nm],
      rows := List.zipWith (fun r v => r ++ [v]) df.rows vals }

/-- Step 9: when a `CardHolderName` column is present, build `Card No.` from it
by digit extraction plus forward fill, then drop `CardHolderName`. -/
def step9 (df : DF) : DF :=
  if "CardHolderName" ∈ df.names then
    filterCols (fun n => decide (n ≠ "CardHolderName"))
      (setCol df "Card No." (idPass (colCells df "CardHolderName")))
  else df

/-- The fixed target schema, in its fixed order. -/
def desiredCols : List String := ["Card No.", "Verified", "Date", "Payee", "Charges"]

/-- The non-identifier target columns (`check_cols` universe of step 11). -/
def checkNames : List String := ["Verified", "Date", "Payee", "Charges"]

/-- Step 10: `df[existing_cols]` — keep only the desired columns that exist,
in the fixed desired order. -/
def step10 (df : DF) : DF :=
  let ex := desiredCols.filter (fun c => decide (c ∈ df.names))
  { names := ex,
    rows := df.rows.map (fun r => ex.map (fun nm => r.getD (firstIdx nm df.names) none)) }

/-- Step 11: `dropna(subset=check_cols, how="all")` — keep a row iff some cell
in a column not named `Card No.` is non-null (with no such column, the mask is
all-`False` and every row is dropped, as pandas does). -/
def step11 (df : DF) : DF :=
  let cIdxs := (List.range df.names.length).filter
    (fun i => decide (df.names.getD i "" ≠ "Card No."))
  { names := df.names,
    rows := df.rows.filter (fun r => cIdxs.any (fun i => (r.getD i none).isSome)) }

/-- Step 12: drop the last `b` rows when `b > 0` and at least `b` rows exist. -/
def step12 (b : Nat) (df : DF) : DF :=
  if 0 < b ∧ b ≤ df.rows.length then
    { names := df.names, rows := df.rows.take (df.rows.length - b) }
  else df

/-- Steps 3–5: install the header row's cleaned values as column names; the
rows after the header become the data rows. -/
def installHeader (hdr : Row) (data : List Row) : DF :=
  { names := renameBlanks (hdr.map cleanName) 0, rows := data }

/-- `process_card_data`: the whole pipeline.  The only failure is the header
scan (`ValueError`, reported and turned into a no-result by the caller). -/
def normalize (rows : List Row) (top bottom : Nat) : Except String DF :=
  match splitHeader 10 (rows.drop top) with
  | none => Except.error "HeaderNotFound"
  | some (hdr, data) =>
    Except.ok (step12 bottom (step11 (step10 (step9 (step8
      (filterCols (fun n => decide (n ≠ "Record#")) (dedupe (installHeader hdr data))))))))

/-- Last non-null entry of a list of optional values (`none` when there is
none): the value a forward fill propagates past the end of the list. -/
def lastSome (l : List Cell) : Cell :=
  l.foldl (fun acc v => match v with | some x => some x | none => acc) none

/-- Cell-level correspondence between an intermediate dataframe of the
pipeline and the original data rows: same number of rows, rectangular rows,
and every cell sitting under one of the four non-identifier target names is
the untouched cell of the same data row at the leftmost source column of that
name (`src` is the list of source column names). -/
def Tracks (df : DF) (data : List Row) (src : List String) : Prop :=
  df.rows.length = data.length ∧
  (∀ k, k < df.rows.length → (df.rows.getD k []).length = df.names.length) ∧
  (∀ k j, k < df.rows.length → j < df.names.length →
    df.names.getD j "" ∈ checkNames →
    (df.rows.getD k []).getD j none =
      (data.getD k []).getD (firstIdx (df.names.getD j "") src) none)

/-! ## Concrete tables used by the theorems below -/

/-- The end-to-end scenario of the spec: two noise rows, then the header row at
index 2, then two data rows. -/
def exEndToEnd : List Row :=
  [[none, none, none, none, none, none],
   [none, none, none, none, none, none],
   [some "", some "Verified", some "Date", some "Payee", some "Charges", some "Record#"],
   [some "CH001 - John", some "Y", some "2024-01-01", some "Store", some "10.00", some "1"],
   [none, some "Y", some "2024-01-02", some "Store2", some "20.00", some "2"]]

/-- The header row of `exEndToEnd`. -/
def exHdr : Row :=
  [some "", some "Verified", some "Date", some "Payee", some "Charges", some "Record#"]

/-- The data rows of `exEndToEnd` (the rows strictly after the header). -/
def exData : List Row :=
  [[some "CH001 - John", some "Y", some "2024-01-01", some "Store", some "10.00", some "1"],
   [none, some "Y", some "2024-01-02", some "Store2", some "20.00", some "2"]]

/-- The cleaned table `normalize exEndToEnd 0 0` produces. -/
def exOut : DF :=
  { names := ["Card No.", "Verified", "Date", "Payee", "Charges"],
    rows := [[some "001", some "Y", some "2024-01-01", some "Store", some "10.00"],
             [some "001", some "Y", some "2024-01-02", some "Store2", some "20.00"]] }

/-- A table with no `"Verified"` cell anywhere. -/
def exNoHeader : List Row := [[some "a"], [some "b"]]

/-- Header at index 0; first data row has a non-null identifier source but
null `Verified`/`Charges`; second data row has only `Charges` non-null. -/
def exC6 : List Row :=
  [[some "", some "Verified", some "Charges"],
   [some "CH9", none, none],
   [none, none, some "5.00"]]

/-- A dataframe whose only column is `Card No.`, with one (non-null) row. -/
def dfCardOnly : DF := { names := ["Card No."], rows := [[some "7"]] }

/-- A dataframe with a column literally named `CardHolderName` whose sampled
values contain no digit. -/
def dfChn : DF := { names := ["CardHolderName", "Verified"], rows := [[some "John", some "Y"]] }

/-- A raw table whose header literally names a column `CardHolderName`. -/
def exChnRows : List Row :=
  [[some "CardHolderName", some "Verified"], [some "John", some "Y"]]

/-- A dataframe whose only `CardHolderName*` column is `CardHolderName1`,
with no digit in its values, and no column named exactly `CardHolderName`. -/
def dfChn1 : DF := { names := ["CardHolderName1", "Verified"], rows := [[some "John", some "Y"]] }

/-- A three-row dataframe for the bottom-trim boundary cases. -/
def dfThree : DF := { names := ["Verified"], rows := [[some "a"], [some "b"], [some "c"]] }

/-- The cleaned table `normalize exC6 0 0` produces. -/
def dfC6out : DF :=
  { names := ["Card No.", "Verified", "Charges"], rows := [[some "9", none, some "5.00"]] }

/-! ## Generic list lemmas -/

theorem getD_map {α β : Type} (l : List α) (f : α → β) (j : Nat) (d : β) (a : α)
    (h : j < l.length) : (l.map f).getD j d = f (l.getD j a) := by
  induction l generalizing j with
  | nil => exact absurd h (Nat.not_lt_zero j)
  | cons x tl ih =>
    cases j with
    | zero => rfl
    | succ j => exact ih j (Nat.lt_of_succ_lt_succ h)

theorem getD_mem {α : Type} (l : List α) (i : Nat) (d : α) (h : i < l.length) :
    l.getD i d ∈ l := by
  induction l generalizing i with
  | nil => exact absurd h (Nat.not_lt_zero i)
  | cons x tl ih =>
    cases i with
    | zero => exact List.mem_cons_self x tl
    | succ i => exact List.mem_cons_of_mem x (ih i (Nat.lt_of_succ_lt_succ h))

theorem mem_getD {α : Type} {l : List α} {a : α} (d : α) (h : a ∈ l) :
    ∃ i, i < l.length ∧ l.getD i d = a := by
  induction l with
  | nil => cases h
  | cons x tl ih =>
    rcases List.mem_cons.1 h with rfl | h'
    · exact ⟨0, Nat.succ_pos _, rfl⟩
    · obtain ⟨i, hi, he⟩ := ih h'
      exact ⟨i + 1, Nat.succ_lt_succ hi, he⟩

theorem getD_append_lt {α : Type} (l l' : List α) (j : Nat) (d : α) (h : j < l.length) :
    (l ++ l').getD j d = l.getD j d := by
  induction l generalizing j with
  | nil => exact absurd h (Nat.not_lt_zero j)
  | cons x tl ih =>
    cases j with
    | zero => rfl
    | succ j => exact ih j (Nat.lt_of_succ_lt_succ h)

theorem getD_append_len {α : Type} (l : List α) (x : α) (d : α) :
    (l ++ [x]).getD l.length d = x := by
  induction l with
  | nil => rfl
  | cons y tl ih => exact ih

theorem getD_set_ne {α : Type} (l : List α) (i j : Nat) (v d : α) (h : j ≠ i) :
    (l.set i v).getD j d = l.getD j d := by
  induction l generalizing i j with
  | nil => rfl
  | cons x tl ih =>
    cases i with
    | zero =>
      cases j with
      | zero => exact absurd rfl h
      | succ j => rfl
    | succ i =>
      cases j with
      | zero => rfl
      | succ j => exact ih i j (fun he => h (by rw [he]))

theorem getD_zipWith {α β γ : Type} (f : α → β → γ) (l : List α) (l' : List β)
    (k : Nat) (d : γ) (a : α) (b : β) (h1 : k < l.length) (h2 : k < l'.length) :
    (List.zipWith f l l').getD k d = f (l.getD k a) (l'.getD k b) := by
  induction l generalizing l' k with
  | nil => exact absurd h1 (Nat.not_lt_zero k)
  | cons x tl ih =>
    cases l' with
    | nil => exact absurd h2 (Nat.not_lt_zero k)
    | cons y tl' =>
      cases k with
      | zero => rfl
      | succ k => exact ih tl' k (Nat.lt_of_succ_lt_succ h1) (Nat.lt_of_succ_lt_succ h2)

/-! ## Lemmas about `firstIdx` -/

theorem firstIdx_lt_of_mem {nm : String} {l : List String} (h : nm ∈ l) :
    firstIdx nm l < l.length := by
  induction l with
  | nil => cases h
  | cons x tl ih =>
    by_cases hx : x = nm
    · simp [firstIdx, hx]
    · rcases List.mem_cons.1 h with h1 | h2
      · exact absurd h1.symm hx
      · simp only [firstIdx, if_neg hx, List.length_cons]
        exact Nat.succ_lt_succ (ih h2)

theorem getD_firstIdx {nm : String} {l : List String} (h : nm ∈ l) :
    l.getD (firstIdx nm l) "" = nm := by
  induction l with
  | nil => cases h
  | cons x tl ih =>
    by_cases hx : x = nm
    · simp [firstIdx, hx]
    · rcases List.mem_cons.1 h with h1 | h2
      · exact absurd h1.symm hx
      · simp only [firstIdx, if_neg hx]
        exact ih h2

theorem firstIdx_eq_of_new {l : List String} {i : Nat} (hi : i < l.length)
    (hnew : l.getD i "" ∉ l.take i) : firstIdx (l.getD i "") l = i := by
  induction l generalizing i with
  | nil => exact absurd hi (Nat.not_lt_zero i)
  | cons x tl ih =>
    cases i with
    | zero => simp [firstIdx]
    | succ i =>
      have hx : ¬ (x = tl.getD i "") := by
        intro he
        exact hnew (by rw [List.getD_cons_succ, ← he, List.take_succ_cons]; exact List.mem_cons_self _ _)
      have hnew' : tl.getD i "" ∉ tl.take i := by
        intro hm
        exact hnew (by rw [List.getD_cons_succ, List.take_succ_cons]; exact List.mem_cons_of_mem _ hm)
      rw [List.getD_cons_succ]
      simp only [firstIdx, if_neg hx]
      rw [ih (Nat.lt_of_succ_lt_succ hi) hnew']

/-! ## Lemmas about the header scan -/

theorem splitHeader_of_none (fuel : Nat) (l : List Row)
    (h : ∀ r ∈ l.take fuel, rowHasVerified r = false) :
    splitHeader fuel l = none := by
  induction fuel generalizing l with
  | zero => cases l <;> rfl
  | succ fuel ih =>
    cases l with
    | nil => rfl
    | cons r tl =>
      have hr : rowHasVerified r = false := h r (by rw [List.take_succ_cons]; exact List.mem_cons_self _ _)
      simp only [splitHeader, hr]
      simp only [Bool.false_eq_true, if_false]
      exact ih tl (fun r' hr' => h r' (by rw [List.take_succ_cons]; exact List.mem_cons_of_mem _ hr'))

theorem splitHeader_of_some (fuel : Nat) (l : List Row)
    (h : ∃ r ∈ l.take fuel, rowHasVerified r = true) :
    ∃ pr, splitHeader fuel l = some pr := by
  induction fuel generalizing l with
  | zero =>
    obtain ⟨r, hm, _⟩ := h
    rw [List.take_zero] at hm
    cases hm
  | succ fuel ih =>
    cases l with
    | nil =>
      obtain ⟨r, hm, _⟩ := h
      rw [List.take_nil] at hm
      cases hm
    | cons r tl =>
      cases hv : rowHasVerified r with
      | true => exact ⟨(r, tl), by simp only [splitHeader, hv, if_true]⟩
      | false =>
        obtain ⟨r', hm, hp⟩ := h
        rw [List.take_succ_cons] at hm
        rcases List.mem_cons.1 hm with rfl | hm'
        · exact absurd hp (by rw [hv]; exact Bool.false_ne_true)
        · obtain ⟨pr, he⟩ := ih tl ⟨r', hm', hp⟩
          exact ⟨pr, by simp only [splitHeader, hv, Bool.false_eq_true, if_false]; exact he⟩

/-! ## Shape lemmas for the late pipeline steps -/

theorem step10_names (df : DF) :
    (step10 df).names = desiredCols.filter (fun c => decide (c ∈ df.names)) := rfl

theorem step11_names (df : DF) : (step11 df).names = df.names := rfl

theorem step12_names (b : Nat) (df : DF) : (step12 b df).names = df.names := by
  unfold step12
  split <;> rfl

theorem step12_rows_subset (b : Nat) (df : DF) (r : Row)
    (h : r ∈ (step12 b df).rows) : r ∈ df.rows := by
  unfold step12 at h
  by_cases hc : 0 < b ∧ b ≤ df.rows.length
  · rw [if_pos hc] at h
    exact (List.take_sublist _ _).subset h
  · rw [if_neg hc] at h
    exact h

theorem step11_rows_mem (df : DF) (r : Row) (h : r ∈ (step11 df).rows) :
    r ∈ df.rows ∧ (((List.range df.names.length).filter
      (fun i => decide (df.names.getD i "" ≠ "Card No."))).any
      (fun i => (r.getD i none).isSome)) = true :=
  List.mem_filter.1 h

/-- C1: end-to-end scenario.  Header at index 2; columns come out as the five
canonical names in order, `Record#` is dropped, the first data row's
`Card No.` is the first digit run `"001"` of `"CH001 - John"`, the second row
inherits `"001"` by forward fill, and every other cell is unchanged. -/
theorem C1_end_to_end :
    normalize exEndToEnd 0 0 = Except.ok
      { names := ["Card No.", "Verified", "Date", "Payee", "Charges"],
        rows := [[some "001", some "Y", some "2024-01-01", some "Store", some "10.00"],
                 [some "001", some "Y", some "2024-01-02", some "Store2", some "20.00"]] } := rfl

/-- C2: whenever some row among the first `min(10, rowCount)` rows of the
top-trimmed table has a cell containing `"Verified"`, `normalize` succeeds,
and the result's column names are a duplicate-free subsequence of
`["Card No.", "Verified", "Date", "Payee", "Charges"]` in that fixed order. -/
theorem C2_success_fixed_schema (rows : List Row) (top bottom : Nat)
    (h : ∃ r ∈ (rows.drop top).take 10, rowHasVerified r = true) :
    ∃ df, normalize rows top bottom = Except.ok df ∧
      List.Sublist df.names desiredCols ∧ df.names.Nodup := by
  obtain ⟨⟨hdr, data⟩, hsp⟩ := splitHeader_of_some 10 (rows.drop top) h
  refine ⟨step12 bottom (step11 (step10 (step9 (step8 (filterCols
      (fun n => decide (n ≠ "Record#")) (dedupe (installHeader hdr data))))))), ?_, ?_, ?_⟩
  · unfold normalize
    rw [hsp]
  · rw [step12_names, step11_names, step10_names]
    exact List.filter_sublist desiredCols
  · rw [step12_names, step11_names, step10_names]
    exact List.Nodup.sublist (List.filter_sublist desiredCols) (by decide)

/-- Witness for C2 at the end-to-end table. -/
theorem C2_witness :
    ∃ df, normalize exEndToEnd 0 0 = Except.ok df ∧
      List.Sublist df.names desiredCols ∧ df.names.Nodup :=
  C2_success_fixed_schema exEndToEnd 0 0 (by decide)

/-- C3: when no row among the first `min(10, rowCount)` rows of the
top-trimmed table has a cell containing `"Verified"` (case-sensitive),
`normalize` produces no table and fails with the `HeaderNotFound` error. -/
theorem C3_header_not_found (rows : List Row) (top bottom : Nat)
    (h : ∀ r ∈ (rows.drop top).take 10, rowHasVerified r = false) :
    normalize rows top bottom = Except.error "HeaderNotFound" := by
  unfold normalize
  rw [splitHeader_of_none 10 (rows.drop top) h]

/-- Witness for C3 at a table with no `"Verified"` cell. -/
theorem C3_witness : normalize exNoHeader 0 0 = Except.error "HeaderNotFound" :=
  C3_header_not_found exNoHeader 0 0 (by decide)

/-- Counterexample to C4 as stated: with `trimTop = 10 > 5` rows,
`normalize` does NOT return an empty table — it returns no table at all. -/
theorem C4_cex : ¬ ∃ df, normalize exEndToEnd 10 0 = Except.ok df ∧ df.rows = [] := by
  rintro ⟨df, hok, -⟩
  rw [show normalize exEndToEnd 10 0 = Except.error "HeaderNotFound" from rfl] at hok
  exact Except.noConfusion hok

/-- C4 amended: when `trimTop` exceeds the row count, the top trim itself
yields an empty table without error, but `normalize` as a whole then fails
with `HeaderNotFound`, since the empty trimmed table has no header row. -/
theorem C4_trim_beyond_end (rows : List Row) (top bottom : Nat)
    (h : rows.length < top) :
    rows.drop top = [] ∧ normalize rows top bottom = Except.error "HeaderNotFound" := by
  have hd : rows.drop top = [] := List.drop_eq_nil_of_le (Nat.le_of_lt h)
  refine ⟨hd, ?_⟩
  unfold normalize
  rw [hd]
  rfl

/-- Witness for the amended C4. -/
theorem C4_witness :
    exEndToEnd.drop 10 = [] ∧ normalize exEndToEnd 10 0 = Except.error "HeaderNotFound" :=
  C4_trim_beyond_end exEndToEnd 10 0 (by decide)

/-! ## Forward fill -/

theorem ffillAux_length (last : Option String) (l : List Cell) :
    (ffillAux last l).length = l.length := by
  induction l generalizing last with
  | nil => rfl
  | cons x tl ih => cases x <;> simp [ffillAux, ih]

theorem idPass_length (cells : List Cell) : (idPass cells).length = cells.length := by
  rw [idPass, ffillAux_length, List.length_map]

theorem ffillAux_getD (l : List Cell) (last : Option String) (i : Nat) (h : i < l.length) :
    (ffillAux last l).getD i none =
      (l.take (i + 1)).foldl (fun acc v => match v with | some x => some x | none => acc) last := by
  induction l generalizing last i with
  | nil => exact absurd h (Nat.not_lt_zero i)
  | cons x tl ih =>
    cases i with
    | zero => cases x <;> rfl
    | succ i =>
      cases x with
      | none => exact ih last i (Nat.lt_of_succ_lt_succ h)
      | some v => exact ih (some v) i (Nat.lt_of_succ_lt_succ h)

/-- C5: the identifier pass maps each cell to the first digit run of its
stringified value (missing when null or digit-free), then forward-fills: each
position holds the last non-missing extracted value among itself and its
predecessors (so entries before the first non-missing value stay missing);
in particular `[null, "12", null, "34"]` yields `[null, "12", "12", "34"]`. -/
theorem C5_extract_then_ffill (cells : List Cell) :
    (idPass cells).length = cells.length ∧
    (∀ i, i < cells.length →
      (idPass cells).getD i none =
        lastSome ((cells.map (fun c => extractDigits (cellStr c))).take (i + 1))) ∧
    idPass [none, some "12", none, some "34"] = [none, some "12", some "12", some "34"] := by
  refine ⟨idPass_length cells, ?_, rfl⟩
  intro i hi
  have hlen : i < (cells.map (fun c => extractDigits (cellStr c))).length := by
    rw [List.length_map]
    exact hi
  exact ffillAux_getD _ none i hlen

/-- Witness for C5 at the spec's list, position 2 (a forward-filled hole). -/
theorem C5_witness :
    (idPass [none, some "12", none, some "34"]).length = 4 ∧
    (idPass [none, some "12", none, some "34"]).getD 2 none =
      lastSome (([none, some "12", none, some "34"].map
        (fun c => extractDigits (cellStr c))).take 3) ∧
    idPass [none, some "12", none, some "34"] = [none, some "12", some "12", some "34"] :=
  ⟨(C5_extract_then_ffill [none, some "12", none, some "34"]).1,
   (C5_extract_then_ffill [none, some "12", none, some "34"]).2.1 2 (by decide),
   (C5_extract_then_ffill [none, some "12", none, some "34"]).2.2⟩

/-- C6: on success, if some non-identifier target column made it into the
output, every surviving row has a non-null cell in a column other than
`Card No.` (fully empty rows were removed by the `dropna` step). -/
theorem C6_rows_have_data (rows : List Row) (top bottom : Nat) (df : DF)
    (hok : normalize rows top bottom = Except.ok df)
    (hcols : ∃ c ∈ checkNames, c ∈ df.names) :
    ∀ r ∈ df.rows, ∃ j, j < df.names.length ∧
      df.names.getD j "" ≠ "Card No." ∧ (r.getD j none).isSome = true := by
  unfold normalize at hok
  cases hsp : splitHeader 10 (rows.drop top) with
  | none =>
    rw [hsp] at hok
    exact Except.noConfusion hok
  | some pr =>
    obtain ⟨hdr, data⟩ := pr
    rw [hsp] at hok
    have hdf : step12 bottom (step11 (step10 (step9 (step8 (filterCols
        (fun n => decide (n ≠ "Record#")) (dedupe (installHeader hdr data))))))) = df := by
      injection hok
    subst hdf
    intro r hr
    have hr11 := step12_rows_subset bottom _ r hr
    obtain ⟨-, hkeep⟩ := step11_rows_mem _ r hr11
    obtain ⟨i, hmem, hsome⟩ := List.any_eq_true.1 hkeep
    obtain ⟨hrange, hne⟩ := List.mem_filter.1 hmem
    rw [step12_names, step11_names]
    exact ⟨i, List.mem_range.1 hrange, of_decide_eq_true hne, hsome⟩

/-- Witness for C6: the row with non-null identifier source but null
`Verified`/`Charges` is dropped; the row with only `Charges` non-null is
kept, and every output row has a non-null non-identifier cell. -/
theorem C6_witness :
    normalize exC6 0 0 = Except.ok dfC6out ∧
    ∀ r ∈ dfC6out.rows, ∃ j, j < dfC6out.names.length ∧
      dfC6out.names.getD j "" ≠ "Card No." ∧ (r.getD j none).isSome = true :=
  ⟨rfl, C6_rows_have_data exC6 0 0 dfC6out rfl (by decide)⟩

/-- Counterexample to C7 as stated: with `Card No.` the only kept column,
the `dropna` step does NOT pass rows through unchanged. -/
theorem C7_cex : ¬ ((step11 dfCardOnly).rows = dfCardOnly.rows) := by decide

/-- C7 amended: when every kept column is named `Card No.` (so `checkCols`
is empty), the `dropna(subset=[], how="all")` step drops EVERY row — the
all-`False` keep mask of pandas — rather than none. -/
theorem C7_empty_checkcols_drops_all (df : DF)
    (h : ∀ nm ∈ df.names, nm = "Card No.") :
    (step11 df).names = df.names ∧ (step11 df).rows = [] := by
  refine ⟨rfl, ?_⟩
  have hidx : (List.range df.names.length).filter
      (fun i => decide (df.names.getD i "" ≠ "Card No.")) = [] := by
    apply List.filter_eq_nil_iff.2
    intro i hi
    have hlt : i < df.names.length := List.mem_range.1 hi
    have he := h _ (getD_mem df.names i "" hlt)
    exact fun hcon => (of_decide_eq_true hcon) he
  show df.rows.filter (fun r => ((List.range df.names.length).filter
      (fun i => decide (df.names.getD i "" ≠ "Card No."))).any
      (fun i => (r.getD i none).isSome)) = []
  simp only [hidx, List.any_nil]
  exact List.filter_eq_nil_iff.2 (fun _ _ => by simp)

/-- Witness for the amended C7. -/
theorem C7_witness :
    (step11 dfCardOnly).names = dfCardOnly.names ∧ (step11 dfCardOnly).rows = [] :=
  C7_empty_checkcols_drops_all dfCardOnly (by decide)

/-- Counterexample to C8 as stated: no `CardHolderName*` column qualifies
(no digit among sampled values), yet the extraction/forward-fill step still
runs, because a column is literally named `CardHolderName`; a `Card No.`
column appears in the output. -/
theorem C8_cex :
    (∀ c ∈ dfChn.names, strStarts "CardHolderName" c = true → hasDigitSample dfChn c = false) ∧
    chooseIdCol dfChn = none ∧
    "Card No." ∈ (step9 (step8 dfChn)).names ∧
    normalize exChnRows 0 0 = Except.ok
      { names := ["Card No.", "Verified"], rows := [[none, some "Y"]] } :=
  ⟨by decide, by decide, by decide, rfl⟩

/-- C8 amended: when no `CardHolderName*` column has a digit among its first
20 non-null values, no identifier column is selected and the selection step
changes nothing; the digit-extraction/forward-fill step is additionally
skipped only when no column is literally named `CardHolderName` (step 9 keys
on that exact name, which can occur without a selection). -/
theorem C8_no_qualifying_column (df : DF)
    (h : ∀ c ∈ df.names, strStarts "CardHolderName" c = true → hasDigitSample df c = false) :
    chooseIdCol df = none ∧ step8 df = df ∧
    ("CardHolderName" ∉ df.names → step9 df = df) := by
  have hc : chooseIdCol df = none := by
    apply List.find?_eq_none.2
    intro c hcm
    obtain ⟨hmem, hst⟩ := List.mem_filter.1 hcm
    have hd := h c hmem hst
    simp [hd]
  refine ⟨hc, ?_, ?_⟩
  · unfold step8
    rw [hc]
  · intro hnm
    unfold step9
    rw [if_neg hnm]

/-- Witness for the amended C8. -/
theorem C8_witness :
    chooseIdCol dfChn1 = none ∧ step8 dfChn1 = dfChn1 ∧ step9 dfChn1 = dfChn1 :=
  ⟨(C8_no_qualifying_column dfChn1 (by decide)).1,
   (C8_no_qualifying_column dfChn1 (by decide)).2.1,
   (C8_no_qualifying_column dfChn1 (by decide)).2.2 (by decide)⟩

/-- C9: bottom trim.  With `0 < trimBottom ≤ rowCount`, exactly the last
`trimBottom` rows are dropped (the output is the complementary prefix);
otherwise — in particular when `trimBottom` exceeds the row count — the
table is left completely unchanged, with no error and no partial trim. -/
theorem C9_bottom_trim (df : DF) (b : Nat) :
    (0 < b → b ≤ df.rows.length →
      (step12 b df).names = df.names ∧
      (step12 b df).rows = df.rows.take (df.rows.length - b) ∧
      (step12 b df).rows ++ df.rows.drop (df.rows.length - b) = df.rows ∧
      (df.rows.drop (df.rows.length - b)).length = b) ∧
    (¬ (0 < b ∧ b ≤ df.rows.length) → step12 b df = df) := by
  constructor
  · intro hb hle
    have hif : step12 b df = { names := df.names, rows := df.rows.take (df.rows.length - b) } := by
      unfold step12
      rw [if_pos (⟨hb, hle⟩ : 0 < b ∧ b ≤ df.rows.length)]
    refine ⟨by rw [hif], by rw [hif], ?_, ?_⟩
    · rw [hif]
      exact List.take_append_drop _ _
    · rw [List.length_drop]
      exact Nat.sub_sub_self hle
  · intro hn
    unfold step12
    rw [if_neg hn]

/-- Witness for C9: both branches at concrete tables. -/
theorem C9_witness :
    (step12 2 dfThree).rows = dfThree.rows.take 1 ∧ step12 5 dfThree = dfThree :=
  ⟨((C9_bottom_trim dfThree 2).1 (by decide) (by decide)).2.1,
   (C9_bottom_trim dfThree 5).2 (by decide)⟩

/-! ## The frame condition: non-identifier cells are never rewritten

`Tracks df data src` is preserved by every column-level step of the pipeline,
starting right after the duplicate-column removal. -/

theorem tracks_selectIdxs (df : DF) (data : List Row) (src : List String) (idxs : List Nat)
    (ht : Tracks df data src) (hb : ∀ i ∈ idxs, i < df.names.length) :
    Tracks (selectIdxs df idxs) data src := by
  obtain ⟨hlen, -, hcell⟩ := ht
  refine ⟨?_, ?_, ?_⟩
  · show (df.rows.map fun r => idxs.map fun i => r.getD i none).length = data.length
    rw [List.length_map]
    exact hlen
  · intro k hk
    have hk' : k < df.rows.length := by simpa [selectIdxs] using hk
    show ((df.rows.map fun r => idxs.map fun i => r.getD i none).getD k []).length
      = (idxs.map fun i => df.names.getD i "").length
    rw [getD_map df.rows _ k [] [] hk', List.length_map, List.length_map]
  · intro k j hk hj hmem
    have hk' : k < df.rows.length := by simpa [selectIdxs] using hk
    have hj' : j < idxs.length := by simpa [selectIdxs] using hj
    have hnj : (selectIdxs df idxs).names.getD j "" = df.names.getD (idxs.getD j 0) "" := by
      show (idxs.map fun i => df.names.getD i "").getD j "" = _
      rw [getD_map idxs _ j "" 0 hj']
    have hrj : ((selectIdxs df idxs).rows.getD k []).getD j none
        = (df.rows.getD k []).getD (idxs.getD j 0) none := by
      show ((df.rows.map fun r => idxs.map fun i => r.getD i none).getD k []).getD j none = _
      rw [getD_map df.rows _ k [] [] hk', getD_map idxs _ j none 0 hj']
    rw [hnj] at hmem
    rw [hrj, hnj]
    exact hcell k (idxs.getD j 0) hk' (hb _ (getD_mem idxs j 0 hj')) hmem

theorem filterColIdxs_lt (p : String → Bool) (names : List String) :
    ∀ i ∈ filterColIdxs p names, i < names.length := by
  intro i hi
  exact List.mem_range.1 (List.mem_filter.1 hi).1

theorem tracks_filterCols (p : String → Bool) (df : DF) (data : List Row) (src : List String)
    (ht : Tracks df data src) : Tracks (filterCols p df) data src :=
  tracks_selectIdxs df data src (filterColIdxs p df.names) ht (filterColIdxs_lt p df.names)

theorem tracks_dedupe (names2 : List String) (data : List Row) :
    Tracks (dedupe { names := names2, rows := data }) data names2 := by
  refine ⟨?_, ?_, ?_⟩
  · show (data.map fun r => (dedupKeepIdxs names2).map fun i => r.getD i none).length = data.length
    rw [List.length_map]
  · intro k hk
    have hk' : k < data.length := by simpa [dedupe, selectIdxs] using hk
    show ((data.map fun r => (dedupKeepIdxs names2).map fun i => r.getD i none).getD k []).length
      = ((dedupKeepIdxs names2).map fun i => names2.getD i "").length
    rw [getD_map data _ k [] [] hk', List.length_map, List.length_map]
  · intro k j hk hj hmem
    have hk' : k < data.length := by simpa [dedupe, selectIdxs] using hk
    have hj' : j < (dedupKeepIdxs names2).length := by simpa [dedupe, selectIdxs] using hj
    obtain ⟨hrange, hnew⟩ := List.mem_filter.1 (getD_mem (dedupKeepIdxs names2) j 0 hj')
    have hlt : (dedupKeepIdxs names2).getD j 0 < names2.length := List.mem_range.1 hrange
    have hfi : firstIdx (names2.getD ((dedupKeepIdxs names2).getD j 0) "") names2
        = (dedupKeepIdxs names2).getD j 0 :=
      firstIdx_eq_of_new hlt (of_decide_eq_true hnew)
    have hnj : (dedupe { names := names2, rows := data }).names.getD j ""
        = names2.getD ((dedupKeepIdxs names2).getD j 0) "" := by
      show ((dedupKeepIdxs names2).map fun i => names2.getD i "").getD j "" = _
      rw [getD_map (dedupKeepIdxs names2) _ j "" 0 hj']
    have hrj : ((dedupe { names := names2, rows := data }).rows.getD k []).getD j none
        = (data.getD k []).getD ((dedupKeepIdxs names2).getD j 0) none := by
      show ((data.map fun r =>
        (dedupKeepIdxs names2).map fun i => r.getD i none).getD k []).getD j none = _
      rw [getD_map data _ k [] [] hk', getD_map (dedupKeepIdxs names2) _ j none 0 hj']
    rw [hrj, hnj, hfi]

theorem tracks_renameTo (df : DF) (data : List Row) (src : List String) (chosen : String)
    (ht : Tracks df data src) : Tracks (renameTo df chosen) data src := by
  obtain ⟨hlen, hrlen, hcell⟩ := ht
  refine ⟨hlen, ?_, ?_⟩
  · intro k hk
    have hk' : k < df.rows.length := hk
    show (df.rows.getD k []).length
      = (df.names.map fun n => if n = chosen then "CardHolderName" else n).length
    rw [List.length_map]
    exact hrlen k hk'
  · intro k j hk hj hmem
    have hk' : k < df.rows.length := hk
    have hj' : j < df.names.length := by simpa [renameTo] using hj
    have hnj : (renameTo df chosen).names.getD j ""
        = if df.names.getD j "" = chosen then "CardHolderName" else df.names.getD j "" := by
      show (df.names.map fun n => if n = chosen then "CardHolderName" else n).getD j "" = _
      rw [getD_map df.names _ j "" "" hj']
    by_cases hch : df.names.getD j "" = chosen
    · rw [hnj, if_pos hch] at hmem
      exact absurd hmem (by decide)
    · rw [hnj, if_neg hch] at hmem
      show (df.rows.getD k []).getD j none
        = (data.getD k []).getD (firstIdx ((renameTo df chosen).names.getD j "") src) none
      rw [hnj, if_neg hch]
      exact hcell k j hk' hj' hmem

theorem tracks_step8 (df : DF) (data : List Row) (src : List String)
    (ht : Tracks df data src) : Tracks (step8 df) data src := by
  unfold step8
  cases chooseIdCol df with
  | none => exact ht
  | some chosen =>
    exact tracks_filterCols _ _ _ _ (tracks_renameTo df data src chosen ht)

theorem tracks_setCol (df : DF) (data : List Row) (src : List String) (vals : List Cell)
    (ht : Tracks df data src) (hv : vals.length = df.rows.length) :
    Tracks (setCol df "Card No." vals) data src := by
  obtain ⟨hlen, hrlen, hcell⟩ := ht
  unfold setCol
  by_cases hmem : "Card No." ∈ df.names
  · rw [if_pos hmem]
    refine ⟨?_, ?_, ?_⟩
    · show (List.zipWith (fun r v => r.set (firstIdx "Card No." df.names) v) df.rows vals).length
        = data.length
      rw [List.length_zipWith, hv, Nat.min_self]
      exact hlen
    · intro k hk
      have hk' : k < df.rows.length := by
        simpa [List.length_zipWith, hv, Nat.min_self] using hk
      have hkv : k < vals.length := by rw [hv]; exact hk'
      show ((List.zipWith (fun r v => r.set (firstIdx "Card No." df.names) v)
          df.rows vals).getD k []).length = df.names.length
      rw [getD_zipWith _ df.rows vals k [] [] none hk' hkv, List.length_set]
      exact hrlen k hk'
    · intro k j hk hj hmemj
      have hk' : k < df.rows.length := by
        simpa [List.length_zipWith, hv, Nat.min_self] using hk
      have hkv : k < vals.length := by rw [hv]; exact hk'
      have hj' : j < df.names.length := hj
      have hmem' : df.names.getD j "" ∈ checkNames := hmemj
      have hne : j ≠ firstIdx "Card No." df.names := by
        intro he
        rw [he, getD_firstIdx hmem] at hmem'
        exact absurd hmem' (by decide)
      show ((List.zipWith (fun r v => r.set (firstIdx "Card No." df.names) v)
          df.rows vals).getD k []).getD j none
        = (data.getD k []).getD (firstIdx (df.names.getD j "") src) none
      rw [getD_zipWith _ df.rows vals k [] [] none hk' hkv,
        getD_set_ne _ _ _ _ _ hne]
      exact hcell k j hk' hj' hmem'
  · rw [if_neg hmem]
    refine ⟨?_, ?_, ?_⟩
    · show (List.zipWith (fun r v => r ++ [v]) df.rows vals).length = data.length
      rw [List.length_zipWith, hv, Nat.min_self]
      exact hlen
    · intro k hk
      have hk' : k < df.rows.length := by
        simpa [List.length_zipWith, hv, Nat.min_self] using hk
      have hkv : k < vals.length := by rw [hv]; exact hk'
      show ((List.zipWith (fun r v => r ++ [v]) df.rows vals).getD k []).length
        = (df.names ++ ["Card No."]).length
      rw [getD_zipWith _ df.rows vals k [] [] none hk' hkv,
        List.length_append, List.length_append, hrlen k hk']
      rfl
    · intro k j hk hj hmemj
      have hk' : k < df.rows.length := by
        simpa [List.length_zipWith, hv, Nat.min_self] using hk
      have hkv : k < vals.length := by rw [hv]; exact hk'
      have hj' : j < df.names.length + 1 := by
        have hj2 : j < (df.names ++ ["Card No."]).length := hj
        rw [List.length_append] at hj2
        exact hj2
      have hmem2 : (df.names ++ ["Card No."]).getD j "" ∈ checkNames := hmemj
      rcases Nat.lt_succ_iff_lt_or_eq.1 hj' with hlt | heq
      · rw [getD_append_lt df.names ["Card No."] j "" hlt] at hmem2
        show ((List.zipWith (fun r v => r ++ [v]) df.rows vals).getD k []).getD j none
          = (data.getD k []).getD
            (firstIdx ((df.names ++ ["Card No."]).getD j "") src) none
        rw [getD_zipWith _ df.rows vals k [] [] none hk' hkv,
          getD_append_lt _ _ j none (by rw [hrlen k hk']; exact hlt),
          getD_append_lt df.names ["Card No."] j "" hlt]
        exact hcell k j hk' hlt hmem2
      · subst heq
        rw [getD_append_len df.names "Card No." ""] at hmem2
        exact absurd hmem2 (by decide)

theorem tracks_step9 (df : DF) (data : List Row) (src : List String)
    (ht : Tracks df data src) : Tracks (step9 df) data src := by
  unfold step9
  by_cases hmem : "CardHolderName" ∈ df.names
  · rw [if_pos hmem]
    refine tracks_filterCols _ _ _ _ (tracks_setCol df data src _ ht ?_)
    rw [idPass_length]
    show (df.rows.map fun r => r.getD (firstIdx "CardHolderName" df.names) none).length
      = df.rows.length
    rw [List.length_map]
  · rw [if_neg hmem]
    exact ht

theorem tracks_step10 (df : DF) (data : List Row) (src : List String)
    (ht : Tracks df data src) : Tracks (step10 df) data src := by
  obtain ⟨hlen, -, hcell⟩ := ht
  refine ⟨?_, ?_, ?_⟩
  · show (df.rows.map fun r => (desiredCols.filter fun c => decide (c ∈ df.names)).map
        fun nm => r.getD (firstIdx nm df.names) none).length = data.length
    rw [List.length_map]
    exact hlen
  · intro k hk
    have hk' : k < df.rows.length := by simpa [step10] using hk
    show ((df.rows.map fun r => (desiredCols.filter fun c => decide (c ∈ df.names)).map
        fun nm => r.getD (firstIdx nm df.names) none).getD k []).length
      = (desiredCols.filter fun c => decide (c ∈ df.names)).length
    rw [getD_map df.rows _ k [] [] hk', List.length_map]
  · intro k j hk hj hmemj
    have hk' : k < df.rows.length := by simpa [step10] using hk
    have hj' : j < (desiredCols.filter fun c => decide (c ∈ df.names)).length := by
      simpa [step10] using hj
    have hnm_ex : (desiredCols.filter fun c => decide (c ∈ df.names)).getD j ""
        ∈ desiredCols.filter fun c => decide (c ∈ df.names) :=
      getD_mem _ j "" hj'
    have hnm_df : (desiredCols.filter fun c => decide (c ∈ df.names)).getD j "" ∈ df.names :=
      of_decide_eq_true (List.mem_filter.1 hnm_ex).2
    have hnj : (step10 df).names.getD j ""
        = (desiredCols.filter fun c => decide (c ∈ df.names)).getD j "" := rfl
    have hrj : ((step10 df).rows.getD k []).getD j none
        = (df.rows.getD k []).getD
          (firstIdx ((desiredCols.filter fun c => decide (c ∈ df.names)).getD j "") df.names)
          none := by
      show ((df.rows.map fun r => (desiredCols.filter fun c => decide (c ∈ df.names)).map
          fun nm => r.getD (firstIdx nm df.names) none).getD k []).getD j none = _
      rw [getD_map df.rows _ k [] [] hk', getD_map _ _ j none "" hj']
    rw [hnj] at hmemj
    rw [hrj, hnj]
    have hmemfi : df.names.getD
        (firstIdx ((desiredCols.filter fun c => decide (c ∈ df.names)).getD j "") df.names) ""
        ∈ checkNames := by
      rw [getD_firstIdx hnm_df]
      exact hmemj
    have := hcell k
      (firstIdx ((desiredCols.filter fun c => decide (c ∈ df.names)).getD j "") df.names)
      hk' (firstIdx_lt_of_mem hnm_df) hmemfi
    rw [getD_firstIdx hnm_df] at this
    exact this

theorem ne_chn_of_short {nm : String} (h : nm.length < "CardHolderName".length) :
    ∀ j : Nat, nm ≠ "CardHolderName" ++ toString j := by
  intro j he
  rw [he, String.length_append] at h
  omega

theorem checkNames_not_blank_not_chn :
    ∀ nm ∈ checkNames, nm ≠ "" ∧ ∀ j : Nat, nm ≠ "CardHolderName" ++ toString j := by
  intro nm hnm
  simp only [checkNames, List.mem_cons, List.not_mem_nil, or_false] at hnm
  rcases hnm with rfl | rfl | rfl | rfl <;>
    exact ⟨by decide, ne_chn_of_short (by decide)⟩

theorem firstIdx_renameBlanks (nm : String) (l : List String) (k : Nat)
    (h0 : nm ≠ "") (h1 : ∀ j : Nat, nm ≠ "CardHolderName" ++ toString j) :
    firstIdx nm (renameBlanks l k) = firstIdx nm l := by
  induction l generalizing k with
  | nil => rfl
  | cons x tl ih =>
    by_cases hx : x = ""
    · have hrw : renameBlanks (x :: tl) k
          = ("CardHolderName" ++ toString (k + 1)) :: renameBlanks tl (k + 1) := by
        simp only [renameBlanks, if_pos hx]
      rw [hrw]
      have hne : ¬ ("CardHolderName" ++ toString (k + 1) = nm) := fun he => h1 (k + 1) he.symm
      have hxn : ¬ (x = nm) := fun he => h0 (by rw [← he, hx])
      simp only [firstIdx, if_neg hne, if_neg hxn]
      rw [ih (k + 1)]
    · have hrw : renameBlanks (x :: tl) k = x :: renameBlanks tl k := by
        simp only [renameBlanks, if_neg hx]
      rw [hrw]
      by_cases hxn : x = nm
      · simp only [firstIdx, if_pos hxn]
      · simp only [firstIdx, if_neg hxn]
        rw [ih k]

/-- C10: on success, every cell of the output under `Verified`, `Date`,
`Payee` or `Charges` is the untouched cell of a corresponding input data row
(a row strictly after the header) at the leftmost source column bearing that
cleaned name: normalization only drops rows and columns and synthesizes
`Card No.`; it never rewrites a value in a non-identifier column. -/
theorem C10_frame (rows : List Row) (top bottom : Nat) (hdr : Row) (data : List Row) (df : DF)
    (hsp : splitHeader 10 (rows.drop top) = some (hdr, data))
    (hok : normalize rows top bottom = Except.ok df) :
    ∀ r ∈ df.rows, ∃ d ∈ data, ∀ j, j < df.names.length →
      df.names.getD j "" ∈ checkNames →
      r.getD j none = d.getD (firstIdx (df.names.getD j "") (hdr.map cleanName)) none := by
  unfold normalize at hok
  rw [hsp] at hok
  have hdf : step12 bottom (step11 (step10 (step9 (step8 (filterCols
      (fun n => decide (n ≠ "Record#")) (dedupe (installHeader hdr data))))))) = df := by
    injection hok
  subst hdf
  have ht : Tracks (step10 (step9 (step8 (filterCols (fun n => decide (n ≠ "Record#"))
      (dedupe (installHeader hdr data)))))) data (renameBlanks (hdr.map cleanName) 0) :=
    tracks_step10 _ _ _ (tracks_step9 _ _ _ (tracks_step8 _ _ _ (tracks_filterCols _ _ _ _
      (tracks_dedupe (renameBlanks (hdr.map cleanName) 0) data))))
  intro r hr
  have hr10 : r ∈ (step10 (step9 (step8 (filterCols (fun n => decide (n ≠ "Record#"))
      (dedupe (installHeader hdr data)))))).rows :=
    (step11_rows_mem _ r (step12_rows_subset bottom _ r hr)).1
  obtain ⟨k, hk, hkr⟩ := mem_getD ([] : Row) hr10
  obtain ⟨hlen, -, hcell⟩ := ht
  refine ⟨data.getD k [], getD_mem data k [] (by rw [← hlen]; exact hk), ?_⟩
  intro j hj hmemj
  rw [step12_names, step11_names] at hj hmemj ⊢
  have hthis := hcell k j hk hj hmemj
  rw [hkr] at hthis
  obtain ⟨h0, h1⟩ := checkNames_not_blank_not_chn _ hmemj
  rw [firstIdx_renameBlanks _ (hdr.map cleanName) 0 h0 h1] at hthis
  exact hthis

/-- Witness for C10 at the end-to-end table: every output row corresponds to
an input data row agreeing on the non-identifier columns. -/
theorem C10_witness :
    normalize exEndToEnd 0 0 = Except.ok exOut ∧
    ∀ r ∈ exOut.rows, ∃ d ∈ exData, ∀ j, j < exOut.names.length →
      exOut.names.getD j "" ∈ checkNames →
      r.getD j none = d.getD (firstIdx (exOut.names.getD j "") (exHdr.map cleanName)) none :=
  ⟨rfl, C10_frame exEndToEnd 0 0 exHdr exData exOut rfl rfl⟩

end Sage
